import Mathlib

/-!
# Scalar coefficient functions and set-up logic of `ex_diffusion_2.cpp` and
# `miniapps/mhd/InitialConditions.hpp`

The C++ sources compute with `double` and call `<cmath>`.  The embedding below is
generic in the scalar type `α` and in the elementary functions (`CMath α`), so every
definition is an ordinary computable function.

* The exact-solution identities of `ex_diffusion_2.cpp` are statements about real
  functions; they are made at the real-number reading `realMath : CMath ℝ`.
* The functions of `InitialConditions.hpp` are read in `double` arithmetic itself:
  `Double` below is IEEE 754 binary64 with NaN, infinities, signed zeros and
  round-to-nearest-even, and the statements hold for every `CMath Double`.
-/

/-! ## `<cmath>` -/

/-- The `<cmath>` functions and the constant `M_PI` that the two sources use, over a
scalar type `α` standing for `double`. -/
structure CMath (α : Type) where
  sin : α → α
  cos : α → α
  cosh : α → α
  log : α → α
  acos : α → α
  M_PI : α

/-- Real-number reading of `<cmath>`: every function is the mathematical one. -/
noncomputable def realMath : CMath ℝ where
  sin := Real.sin
  cos := Real.cos
  cosh := Real.cosh
  log := Real.log
  acos := Real.arccos
  M_PI := Real.pi

/-! ## `examples/ex_diffusion_2.cpp`: coefficient functions -/

section Diffusion

variable {α : Type} [Field α]

/-- The function-local constant `static const double PI = acos(-1.);`. -/
def PI (m : CMath α) : α := m.acos (-1)

/-- Source `gt_func`: `return sin(2*PI*pt[0]) * sin(2*PI*pt[1]);`.
A `Vector` holding a point of the plane is a map from the indices `0, 1`. -/
def gt_func (m : CMath α) (pt : Fin 2 → α) : α :=
  m.sin (2 * PI m * pt 0) * m.sin (2 * PI m * pt 1)

/-- Source `neumann_func`.  The four `if`/`else if` branches return a value; falling
through all of them reaches `puts("error"); exit(0);`, which is `none` here. -/
def neumann_func [DecidableEq α] (m : CMath α) (pt : Fin 2 → α) : Option α :=
  let x := pt 0
  let y := pt 1
  if x = 0 then
    some ((-2) * PI m * m.sin (2 * PI m * y))
  else if x = 1 then
    some (2 * PI m * m.sin (2 * PI m * y))
  else if y = 0 then
    some ((-2) * PI m * m.sin (2 * PI m * x))
  else if y = 1 then
    some (2 * PI m * m.sin (2 * PI m * x))
  else
    none

/-- Source `rhs_func`: `return 8*PI*PI*sin(2*PI*pt[0]) * sin(2*PI*pt[1]);`. -/
def rhs_func (m : CMath α) (pt : Fin 2 → α) : α :=
  8 * PI m * PI m * m.sin (2 * PI m * pt 0) * m.sin (2 * PI m * pt 1)

end Diffusion

/-! ## `miniapps/mhd/InitialConditions.hpp`

The functions are written over any scalar type with the six operations the source
uses (`+`, binary and unary `-`, `*`, `/`, decimal literals), with the association of
the C++ expressions.  No law of arithmetic is assumed of `α`. -/

section MHD

variable {α : Type} [Add α] [Sub α] [Mul α] [Div α] [Neg α] [OfScientific α]

/-- The file-scope variables of `InitialConditions.hpp`.  `beta`, `Lx`, `lambda` and
`resiG` have no initialiser (they start at `0.0` and are set by the driver); `ep` and
`tau` start at `.2` and `15.`. -/
structure Globals (α : Type) where
  beta : α
  Lx : α
  lambda : α
  resiG : α
  ep : α
  tau : α

/-- Source `InitialPsi`: `-x(1)+beta*sin(M_PI*x(1))*cos(2.0*M_PI/Lx*x(0))`. -/
def InitialPsi (m : CMath α) (g : Globals α) (x : Fin 2 → α) : α :=
  -(x 1) + g.beta * m.sin (m.M_PI * x 1) * m.cos (2.0 * m.M_PI / g.Lx * x 0)

/-- Source `BackPsi`: `-x(1)`. -/
def BackPsi (x : Fin 2 → α) : α :=
  -(x 1)

/-- Source `InitialPsi2`:
`log(cosh(lambda*(x(1)-.5)))/lambda + beta*sin(M_PI*x(1))*cos(2.0*M_PI/Lx*x(0))`. -/
def InitialPsi2 (m : CMath α) (g : Globals α) (x : Fin 2 → α) : α :=
  m.log (m.cosh (g.lambda * (x 1 - 0.5))) / g.lambda
    + g.beta * m.sin (m.M_PI * x 1) * m.cos (2.0 * m.M_PI / g.Lx * x 0)

/-- Source `BackPsi2`: `log(cosh(lambda*(x(1)-.5)))/lambda`. -/
def BackPsi2 (m : CMath α) (g : Globals α) (x : Fin 2 → α) : α :=
  m.log (m.cosh (g.lambda * (x 1 - 0.5))) / g.lambda

/-- Source `InitialPsi3`:
`-lambda*log( cosh(x(1)/lambda) +ep*cos(x(0)/lambda) ) + beta*cos(M_PI*.5*x(1))*cos(M_PI*x(0))`. -/
def InitialPsi3 (m : CMath α) (g : Globals α) (x : Fin 2 → α) : α :=
  (-g.lambda) * m.log (m.cosh (x 1 / g.lambda) + g.ep * m.cos (x 0 / g.lambda))
    + g.beta * m.cos (m.M_PI * 0.5 * x 1) * m.cos (m.M_PI * x 0)

/-- Source `BackPsi3`: `-lambda*log( cosh(x(1)/lambda) +ep*cos(x(0)/lambda) )`. -/
def BackPsi3 (m : CMath α) (g : Globals α) (x : Fin 2 → α) : α :=
  (-g.lambda) * m.log (m.cosh (x 1 / g.lambda) + g.ep * m.cos (x 0 / g.lambda))

end MHD

/-! ## IEEE 754 binary64: the arithmetic of `double`

Finite values are held as the rational numbers they denote; every operation computes
the exact rational result and rounds it to the nearest binary64 value, ties to even,
with gradual underflow and overflow to infinity.  The special cases are those of
IEEE 754: NaN propagates, `0 * inf`, `inf - inf`, `0 / 0` and `inf / inf` are NaN, a
non-zero value divided by zero is an infinity, and zeros carry a sign. -/

/-- A `double`: NaN, an infinity, a signed zero, or a non-zero finite value `fin q`
(`q` is the number denoted; the operations below only build `fin q` with `q` non-zero
and representable in binary64). -/
inductive Double where
  | nan
  | inf (neg : Bool)
  | zero (neg : Bool)
  | fin (q : ℚ)
deriving DecidableEq, Repr

namespace Double

/-- Number of binary digits of `n`, by halving (`fuel` bounds the number of steps). -/
def bitLenAux : Nat → Nat → Nat
  | 0, _ => 0
  | fuel + 1, n => if n = 0 then 0 else bitLenAux fuel (n / 2) + 1

/-- Number of binary digits of `n`; `n` halvings always suffice. -/
def bitLen (n : Nat) : Nat := bitLenAux n n

/-- The rational number `2 ^ k`. -/
def pow2 (k : Int) : ℚ :=
  if 0 ≤ k then ((2 ^ k.toNat : Nat) : ℚ) else 1 / ((2 ^ (-k).toNat : Nat) : ℚ)

/-- For `q > 0`, the integer `k` with `2 ^ k ≤ q < 2 ^ (k + 1)`. -/
def ilog2 (q : ℚ) : Int :=
  let k : Int := (bitLen q.num.natAbs : Int) - (bitLen q.den : Int)
  if pow2 k ≤ q then k else k - 1

/-- Nearest integer to `q`, a tie going to the even neighbour. -/
def roundHalfEven (q : ℚ) : Int :=
  let f := q.floor
  let r := q - f
  if r < 1 / 2 then f
  else if 1 / 2 < r then f + 1
  else if f % 2 = 0 then f
  else f + 1

/-- Rounding of the exact result `q` of an operation to binary64 (53 significant bits,
exponents `-1022 .. 1023`, subnormals below): the nearest representable value, ties to
even; a result that rounds to `2 ^ 1024` or beyond is an infinity, one that rounds to
zero is a zero with the sign of `q`.  An exact zero gets the sign `negZero`. -/
def round (q : ℚ) (negZero : Bool) : Double :=
  if q = 0 then zero negZero
  else
    let a := |q|
    let e := max (ilog2 a) (-1022)
    let u := pow2 (e - 52)
    let r := (roundHalfEven (a / u) : ℚ) * u
    if pow2 1024 ≤ r then inf (decide (q < 0))
    else if r = 0 then zero (decide (q < 0))
    else fin (if q < 0 then -r else r)

/-- The sign bit (`true` for negative); NaN is given `false`. -/
def sign : Double → Bool
  | nan => false
  | inf s => s
  | zero s => s
  | fin q => decide (q < 0)

/-- Unary minus: flips the sign bit. -/
def neg : Double → Double
  | nan => nan
  | inf s => inf (!s)
  | zero s => zero (!s)
  | fin q => fin (-q)

/-- Addition.  `inf + (-inf)` is NaN; `x + (±0)` is `x`; `(-0) + (-0)` is `-0` and any
other exact zero sum is `+0`. -/
def add : Double → Double → Double
  | nan, _ => nan
  | _, nan => nan
  | inf s, inf t => if s = t then inf s else nan
  | inf s, _ => inf s
  | _, inf t => inf t
  | zero s, zero t => zero (s && t)
  | zero _, fin b => fin b
  | fin a, zero _ => fin a
  | fin a, fin b => round (a + b) false

/-- Multiplication.  `0 * inf` is NaN; the sign of the result is the exclusive or of
the signs. -/
def mul : Double → Double → Double
  | nan, _ => nan
  | _, nan => nan
  | inf _, zero _ => nan
  | zero _, inf _ => nan
  | inf s, y => inf (xor s y.sign)
  | x, inf t => inf (xor x.sign t)
  | zero s, y => zero (xor s y.sign)
  | x, zero t => zero (xor x.sign t)
  | fin a, fin b => round (a * b) (xor (decide (a < 0)) (decide (b < 0)))

/-- Division.  `inf / inf` and `0 / 0` are NaN; a finite non-zero value or an infinity
divided by a zero is an infinity; a finite value divided by an infinity is a zero. -/
def div : Double → Double → Double
  | nan, _ => nan
  | _, nan => nan
  | inf _, inf _ => nan
  | zero _, zero _ => nan
  | inf s, y => inf (xor s y.sign)
  | x, inf t => zero (xor x.sign t)
  | x, zero t => inf (xor x.sign t)
  | zero s, y => zero (xor s y.sign)
  | fin a, fin b => round (a / b) (xor (decide (a < 0)) (decide (b < 0)))

/-- The C++ comparison `x == y`: false as soon as one side is NaN, true on two zeros
of either sign. -/
def eq : Double → Double → Bool
  | nan, _ => false
  | _, nan => false
  | inf s, inf t => s == t
  | zero _, zero _ => true
  | fin a, fin b => decide (a = b)
  | _, _ => false

instance : Neg Double := ⟨neg⟩

instance : Add Double := ⟨add⟩

instance : Sub Double := ⟨fun x y => add x (neg y)⟩

instance : Mul Double := ⟨mul⟩

instance : Div Double := ⟨div⟩

/-- A decimal literal is the binary64 value nearest to it. -/
instance : OfScientific Double where
  ofScientific mantissa exponentSign decimalExponent :=
    round (if exponentSign then (mantissa : ℚ) / ((10 ^ decimalExponent : Nat) : ℚ)
      else (mantissa : ℚ) * ((10 ^ decimalExponent : Nat) : ℚ)) false

/-- The number denoted by `M_PI`, `0x1.921FB54442D18p+1`. -/
def pi64 : ℚ := 884279719003555 / 281474976710656

end Double

/-! ### A `<cmath>` over `Double`

The statements about `InitialConditions.hpp` hold for every `CMath Double`.  Closed
instances need one particular library: `sampleMath` returns the special values that
C Annex F prescribes and, on the other finite arguments, where the C standard leaves
the accuracy to the implementation, the rounded value of a truncated power series. -/

namespace SampleMath

/-- A 36-digit decimal approximation of pi. -/
def piQ : ℚ := 3141592653589793238462643383279502884 / 10 ^ 36

/-- A 36-digit decimal approximation of `log 2`. -/
def ln2Q : ℚ := 693147180559945309417232121458176568 / 10 ^ 36

/-- Reduction of `x` to `[-pi, pi]`, up to the accuracy of `piQ`. -/
def reduce (x : ℚ) : ℚ := x - 2 * piQ * (Double.roundHalfEven (x / (2 * piQ)) : ℚ)

/-- Sine series, 30 terms, after reduction. -/
def sinQ (x : ℚ) : ℚ :=
  let r := reduce x
  ((List.range 30).map fun k =>
    (-1) ^ k * r ^ (2 * k + 1) / ((Nat.factorial (2 * k + 1) : Nat) : ℚ)).sum

/-- Cosine series, 30 terms, after reduction. -/
def cosQ (x : ℚ) : ℚ :=
  let r := reduce x
  ((List.range 30).map fun k =>
    (-1) ^ k * r ^ (2 * k) / ((Nat.factorial (2 * k) : Nat) : ℚ)).sum

/-- Hyperbolic cosine series, 40 terms. -/
def coshQ (x : ℚ) : ℚ :=
  ((List.range 40).map fun k => x ^ (2 * k) / ((Nat.factorial (2 * k) : Nat) : ℚ)).sum

/-- Logarithm of `q > 0`: with `q = f * 2 ^ e`, `1 ≤ f < 2`, the value
`e * log 2 + 2 * artanh ((f - 1) / (f + 1))`, 30 terms of the series. -/
def logQ (q : ℚ) : ℚ :=
  let e := Double.ilog2 q
  let f := q / Double.pow2 e
  let t := (f - 1) / (f + 1)
  (e : ℚ) * ln2Q
    + 2 * ((List.range 30).map fun k => t ^ (2 * k + 1) / ((2 * k + 1 : Nat) : ℚ)).sum

/-- Arc cosine series, 4 terms of the arc sine (`acos` is not called by
`InitialConditions.hpp`). -/
def acosQ (q : ℚ) : ℚ :=
  piQ / 2 - (q + q ^ 3 / 6 + 3 * q ^ 5 / 40 + 15 * q ^ 7 / 336)

end SampleMath

/-- A `<cmath>` over `Double`.  Special values as in C Annex F: `sin (±0) = ±0`,
`cos (±0) = cosh (±0) = 1`, `sin` and `cos` of an infinity are NaN, `cosh (±inf) = +inf`,
`log 1 = +0`, `log (±0) = -inf`, `log` of a negative value is NaN, `log (+inf) = +inf`,
`acos 1 = +0`, `acos` outside `[-1, 1]` is NaN, and NaN gives NaN. -/
def sampleMath : CMath Double where
  sin
    | .nan => .nan
    | .inf _ => .nan
    | .zero s => .zero s
    | .fin q => Double.round (SampleMath.sinQ q) (decide (q < 0))
  cos
    | .nan => .nan
    | .inf _ => .nan
    | .zero _ => .fin 1
    | .fin q => Double.round (SampleMath.cosQ q) false
  cosh
    | .nan => .nan
    | .inf _ => .inf false
    | .zero _ => .fin 1
    | .fin q => Double.round (SampleMath.coshQ q) false
  log
    | .nan => .nan
    | .inf s => if s then .nan else .inf false
    | .zero _ => .inf true
    | .fin q =>
      if q < 0 then .nan
      else if q = 1 then .zero false
      else Double.round (SampleMath.logQ q) false
  acos
    | .nan => .nan
    | .inf _ => .nan
    | .zero _ => Double.round (SampleMath.piQ / 2) false
    | .fin q =>
      if q = 1 then .zero false
      else if q = -1 then .fin Double.pi64
      else if 1 < |q| then .nan
      else Double.round (SampleMath.acosQ q) false
  M_PI := .fin Double.pi64

/-! ## `examples/ex_diffusion_2.cpp`: `main`, steps 4 and 5

The mesh, the grid function holding its nodes, the collections and the finite element
space are library objects.  `main` only looks at them through a handful of calls; the
structures below record the values those calls return. -/

/-- Library `GridFunction`, as step 4 sees the one returned by `mesh->GetNodes()`:
the name of the collection it owns (`OwnFEC()->Name()`, printed by `main`). -/
structure GridFunction where
  OwnFEC_Name : String
deriving DecidableEq, Repr

/-- The value step 4 stores in `fec`: either a freshly allocated
`new H1_FECollection(p, dim)` or the collection owned by the mesh nodes,
`mesh->GetNodes()->OwnFEC()`. -/
inductive FiniteElementCollection where
  | H1_FECollection (p : Int) (dim : Int)
  | OwnFEC (nodes : GridFunction)
deriving DecidableEq, Repr

/-- Library `Mesh`, as `main` sees it in steps 2 to 5: `Dimension()`, `GetNodes()`
(`none` is the null pointer of a mesh without nodal grid function),
`bdr_attributes.Size()` and `bdr_attributes.Max()`. -/
structure Mesh where
  Dimension : Int
  GetNodes : Option GridFunction
  bdr_attributes_Size : Int
  bdr_attributes_Max : Int
deriving DecidableEq, Repr

/-- Values of `fec` and of the local variable `order` after step 4. -/
structure Step4 where
  fec : FiniteElementCollection
  order : Int
deriving DecidableEq, Repr

/-- Step 4 of `main`:
`if (order > 0) fec = new H1_FECollection(order, dim);`
`else if (mesh->GetNodes()) fec = mesh->GetNodes()->OwnFEC();`
`else fec = new H1_FECollection(order = 1, dim);`. -/
def step4 (mesh : Mesh) (order : Int) : Step4 :=
  let dim := mesh.Dimension
  if order > 0 then
    { fec := .H1_FECollection order dim, order := order }
  else
    match mesh.GetNodes with
    | some nodes => { fec := .OwnFEC nodes, order := order }
    | none => { fec := .H1_FECollection 1 dim, order := 1 }

/-- Library constructor `Array<int>(asize)`: `asize` entries that are not initialised;
`uninit` stands for whatever the fresh memory holds. -/
def Array_new (asize : Int) (uninit : Nat → Int) : List Int :=
  (List.range asize.toNat).map uninit

/-- Library `Array<int>::operator=(const int &a)`: every entry becomes `a`. -/
def Array_assign (arr : List Int) (a : Int) : List Int :=
  arr.map (fun _ => a)

/-- Local variables of step 5 after the step, together with the marker arrays as they
were when handed to `GetEssentialTrueDofs` (`none` when the call is not made). -/
structure Step5 where
  ess_tdof_list : List Int
  neumann_list : List Int
  ess_bdr : List Int
  neumann_bdr : List Int
  ess_bdr_passed : Option (List Int)
  neumann_bdr_passed : Option (List Int)
deriving DecidableEq, Repr

/-- Step 5 of `main`.  `GetEssentialTrueDofs` is the library call
`fespace->GetEssentialTrueDofs(marker, list)`, as the function from the marker array
to the list it produces; `uninit_ess` and `uninit_neumann` are the contents of the two
freshly constructed arrays. -/
def step5 (GetEssentialTrueDofs : List Int → List Int)
    (uninit_ess uninit_neumann : Nat → Int) (mesh : Mesh) : Step5 :=
  let ess_tdof_list : List Int := []
  let neumann_list : List Int := []
  let ess_bdr := Array_new mesh.bdr_attributes_Max uninit_ess
  let neumann_bdr := Array_new mesh.bdr_attributes_Max uninit_neumann
  if mesh.bdr_attributes_Size ≠ 0 then
    let neumann_bdr := Array_assign neumann_bdr 1
    let ess_bdr := Array_assign ess_bdr 0
    let ess_tdof_list := GetEssentialTrueDofs ess_bdr
    let neumann_list := GetEssentialTrueDofs neumann_bdr
    { ess_tdof_list := ess_tdof_list, neumann_list := neumann_list,
      ess_bdr := ess_bdr, neumann_bdr := neumann_bdr,
      ess_bdr_passed := some ess_bdr, neumann_bdr_passed := some neumann_bdr }
  else
    { ess_tdof_list := ess_tdof_list, neumann_list := neumann_list,
      ess_bdr := ess_bdr, neumann_bdr := neumann_bdr,
      ess_bdr_passed := none, neumann_bdr_passed := none }

/-! ## Vocabulary of the statements: Laplacian, sides of the unit square -/

/-- Laplacian of a function of two real variables at `p`: the second derivative in
the first coordinate plus the second derivative in the second coordinate. -/
noncomputable def laplacian (u : (Fin 2 → ℝ) → ℝ) (p : Fin 2 → ℝ) : ℝ :=
  deriv (fun s => deriv (fun r => u ![r, p 1]) s) (p 0)
    + deriv (fun t => deriv (fun r => u ![p 0, r]) t) (p 1)

/-- The four sides of the unit square, in the order `neumann_func` tests them:
`x = 0`, `x = 1`, `y = 0`, `y = 1`. -/
inductive Side where
  | left
  | right
  | bottom
  | top
deriving DecidableEq, Repr

/-- The point `p` lies on the side `s` of `[0,1] x [0,1]`. -/
def Side.contains : Side → (Fin 2 → ℝ) → Prop
  | .left, p => p 0 = 0 ∧ 0 ≤ p 1 ∧ p 1 ≤ 1
  | .right, p => p 0 = 1 ∧ 0 ≤ p 1 ∧ p 1 ≤ 1
  | .bottom, p => p 1 = 0 ∧ 0 ≤ p 0 ∧ p 0 ≤ 1
  | .top, p => p 1 = 1 ∧ 0 ≤ p 0 ∧ p 0 ≤ 1

/-- Outward unit normal of the unit square on each side. -/
def Side.outwardNormal : Side → Fin 2 → ℝ
  | .left => ![-1, 0]
  | .right => ![1, 0]
  | .bottom => ![0, -1]
  | .top => ![0, 1]

/-! ## Theorems -/

/-! ### Derivatives of the exact solution -/

theorem PI_realMath : PI realMath = Real.pi := by
  simp [PI, realMath, Real.arccos_neg_one]

theorem hasDerivAt_sin_affine (a b c s : ℝ) :
    HasDerivAt (fun r : ℝ => Real.sin (a * (b + r * c))) (a * c * Real.cos (a * (b + s * c))) s := by
  have h1 : HasDerivAt (fun r : ℝ => a * (b + r * c)) (a * c) s := by
    have := (((hasDerivAt_id s).mul_const c).const_add b).const_mul a
    simpa using this
  have := h1.sin
  simpa [mul_comm] using this

theorem hasDerivAt_cos_affine (a b c s : ℝ) :
    HasDerivAt (fun r : ℝ => Real.cos (a * (b + r * c)))
      (-(a * c * Real.sin (a * (b + s * c)))) s := by
  have h1 : HasDerivAt (fun r : ℝ => a * (b + r * c)) (a * c) s := by
    have := (((hasDerivAt_id s).mul_const c).const_add b).const_mul a
    simpa using this
  have := h1.cos
  convert this using 1
  ring

/-- Second derivative of `r ↦ sin (a r) * c`. -/
theorem deriv_deriv_sin_mul_const (a c x : ℝ) :
    deriv (fun s => deriv (fun r : ℝ => Real.sin (a * r) * c) s) x
      = -(a * a * Real.sin (a * x)) * c := by
  have h1 : (fun s => deriv (fun r : ℝ => Real.sin (a * r) * c) s)
      = fun s => a * Real.cos (a * s) * c := by
    funext s
    have := ((hasDerivAt_sin_affine a 0 1 s).mul_const c).deriv
    simpa using this
  rw [h1]
  have h2 := (((hasDerivAt_cos_affine a 0 1 x).const_mul a).mul_const c).deriv
  simp only [zero_add, mul_one] at h2
  rw [h2]
  ring

/-- Second derivative of `r ↦ c * sin (a r)`. -/
theorem deriv_deriv_const_mul_sin (a c y : ℝ) :
    deriv (fun t => deriv (fun r : ℝ => c * Real.sin (a * r)) t) y
      = c * -(a * a * Real.sin (a * y)) := by
  have h := deriv_deriv_sin_mul_const a c y
  have e : (fun r : ℝ => c * Real.sin (a * r)) = fun r : ℝ => Real.sin (a * r) * c := by
    funext r
    ring
  rw [e, h]
  ring

/-- The Laplacian of the exact solution, in closed form. -/
theorem laplacian_gt_func (p : Fin 2 → ℝ) :
    laplacian (gt_func realMath) p
      = -(8 * Real.pi * Real.pi * Real.sin (2 * Real.pi * p 0) * Real.sin (2 * Real.pi * p 1)) := by
  have hsin : realMath.sin = Real.sin := rfl
  simp only [laplacian, gt_func, PI_realMath, hsin, Matrix.cons_val_zero, Matrix.cons_val_one,
    Matrix.head_cons]
  rw [deriv_deriv_sin_mul_const, deriv_deriv_const_mul_sin]
  ring

/-- C1. Over the real numbers `gt_func` solves `-Delta u = f` with `f = rhs_func`: at
every point, minus the Laplacian of `gt_func` (the sum of its two second partial
derivatives, negated) equals `rhs_func`. -/
theorem neg_laplacian_gt_func_eq_rhs_func (p : Fin 2 → ℝ) :
    -(laplacian (gt_func realMath) p) = rhs_func realMath p := by
  have hsin : realMath.sin = Real.sin := rfl
  rw [laplacian_gt_func]
  simp only [rhs_func, PI_realMath, hsin, neg_neg]

/-- C3, as worded, fails at `(1/4, 1/4)`: there `rhs_func` is `8 pi^2` while the
Laplacian of `gt_func` is `-8 pi^2`. -/
theorem rhs_func_ne_laplacian_gt_func :
    rhs_func realMath ![1 / 4, 1 / 4] ≠ laplacian (gt_func realMath) ![1 / 4, 1 / 4] := by
  have hsin : realMath.sin = Real.sin := rfl
  have h4 : 2 * Real.pi * (1 / 4 : ℝ) = Real.pi / 2 := by ring
  rw [laplacian_gt_func]
  simp only [rhs_func, PI_realMath, hsin, Matrix.cons_val_zero, Matrix.cons_val_one,
    Matrix.head_cons, h4, Real.sin_pi_div_two, mul_one]
  have hpos : 0 < 8 * Real.pi * Real.pi := by positivity
  intro h
  linarith

/-- C3 (amended). Over the real numbers `rhs_func` is the Laplacian of the exact
solution with the sign reversed: at every point the Laplacian of `gt_func`,
`d2u/dx2 + d2u/dy2`, equals `-rhs_func`. -/
theorem laplacian_gt_func_eq_neg_rhs_func (p : Fin 2 → ℝ) :
    laplacian (gt_func realMath) p = -(rhs_func realMath p) := by
  have hsin : realMath.sin = Real.sin := rfl
  rw [laplacian_gt_func]
  simp only [rhs_func, PI_realMath, hsin]

/-! ### Normal derivative of the exact solution -/

/-- Derivative of the exact solution at `p` along the direction `n`. -/
theorem hasLineDerivAt_gt_func (p n : Fin 2 → ℝ) :
    HasLineDerivAt ℝ (gt_func realMath)
      (2 * Real.pi * n 0 * Real.cos (2 * Real.pi * p 0) * Real.sin (2 * Real.pi * p 1)
        + Real.sin (2 * Real.pi * p 0) * (2 * Real.pi * n 1 * Real.cos (2 * Real.pi * p 1)))
      p n := by
  have hsin : realMath.sin = Real.sin := rfl
  have h := (hasDerivAt_sin_affine (2 * Real.pi) (p 0) (n 0) 0).mul
    (hasDerivAt_sin_affine (2 * Real.pi) (p 1) (n 1) 0)
  simp only [zero_mul, add_zero] at h
  unfold HasLineDerivAt
  simpa only [gt_func, PI_realMath, hsin, Pi.add_apply, Pi.smul_apply, smul_eq_mul] using h

theorem lineDeriv_gt_func (p n : Fin 2 → ℝ) :
    lineDeriv ℝ (gt_func realMath) p n
      = 2 * Real.pi * n 0 * Real.cos (2 * Real.pi * p 0) * Real.sin (2 * Real.pi * p 1)
        + Real.sin (2 * Real.pi * p 0) * (2 * Real.pi * n 1 * Real.cos (2 * Real.pi * p 1)) :=
  (hasLineDerivAt_gt_func p n).lineDeriv

/-- C2. Over the real numbers `neumann_func` is the Neumann datum of the exact
solution on the unit square: for every point `p` and every side `s` of
`[0,1] x [0,1]` containing `p` (both sides at a corner), `neumann_func` returns, and
its value is the derivative of `gt_func` at `p` along the outward unit normal of `s`. -/
theorem neumann_func_eq_normal_derivative (p : Fin 2 → ℝ) (s : Side) (h : s.contains p) :
    neumann_func realMath p = some (lineDeriv ℝ (gt_func realMath) p s.outwardNormal) := by
  have hsin : realMath.sin = Real.sin := rfl
  rw [lineDeriv_gt_func]
  cases s with
  | left =>
    obtain ⟨hx, -, -⟩ := h
    simp [neumann_func, Side.outwardNormal, PI_realMath, hsin, hx]
  | right =>
    obtain ⟨hx, -, -⟩ := h
    simp [neumann_func, Side.outwardNormal, PI_realMath, hsin, hx]
  | bottom =>
    obtain ⟨hy, -, -⟩ := h
    by_cases h0 : p 0 = 0
    · simp [neumann_func, Side.outwardNormal, PI_realMath, hsin, hy, h0]
    · by_cases h1 : p 0 = 1
      · simp [neumann_func, Side.outwardNormal, PI_realMath, hsin, hy, h1]
      · simp [neumann_func, Side.outwardNormal, PI_realMath, hsin, hy, h0, h1]
        ring
  | top =>
    obtain ⟨hy, -, -⟩ := h
    by_cases h0 : p 0 = 0
    · simp [neumann_func, Side.outwardNormal, PI_realMath, hsin, hy, h0]
    · by_cases h1 : p 0 = 1
      · simp [neumann_func, Side.outwardNormal, PI_realMath, hsin, hy, h1]
      · simp [neumann_func, Side.outwardNormal, PI_realMath, hsin, hy, h0, h1]
        ring

/-- C2 at a corner: `(0, 0)` lies on the bottom side, and there `neumann_func`, which
answers from the branch `x == 0`, gives the normal derivative across the bottom side. -/
theorem neumann_func_eq_normal_derivative_corner :
    Side.contains .bottom ![0, 0]
      ∧ neumann_func realMath ![0, 0]
          = some (lineDeriv ℝ (gt_func realMath) ![0, 0] (Side.outwardNormal .bottom)) :=
  ⟨by simp [Side.contains],
   neumann_func_eq_normal_derivative ![0, 0] .bottom (by simp [Side.contains])⟩

/-! ### `main`, step 4 -/

/-- C5, as worded, fails for `order = -1` on a mesh without nodal grid function (such
as the default `star.mesh`): `order < 1`, yet `fec` is a new `H1_FECollection` of
order 1, not a collection owned by mesh nodes, and the mesh has no such collection. -/
theorem step4_without_nodes_not_isoparametric :
    (-1 : Int) < 1
      ∧ (Mesh.mk 2 none 1 1).GetNodes = none
      ∧ (step4 (Mesh.mk 2 none 1 1) (-1)).fec = .H1_FECollection 1 2
      ∧ ¬ ∃ nodes, (step4 (Mesh.mk 2 none 1 1) (-1)).fec = .OwnFEC nodes := by
  refine ⟨by decide, rfl, rfl, ?_⟩
  rintro ⟨nodes, h⟩
  simp [step4] at h

/-- C5 (amended). For every integer order and every mesh: if `order >= 1`, `fec` is
an `H1_FECollection` of exactly that order (and of the mesh dimension) and `order` is
unchanged; if `order < 1` and the mesh has a nodal grid function, `fec` is the
collection owned by those nodes and `order` is unchanged; if `order < 1` and the mesh
has no nodal grid function, `fec` is an `H1_FECollection` of order 1 and `order`
becomes 1. -/
theorem step4_selection (mesh : Mesh) (order : Int) :
    (1 ≤ order → step4 mesh order = ⟨.H1_FECollection order mesh.Dimension, order⟩)
    ∧ (order < 1 → ∀ nodes, mesh.GetNodes = some nodes →
        step4 mesh order = ⟨.OwnFEC nodes, order⟩)
    ∧ (order < 1 → mesh.GetNodes = none →
        step4 mesh order = ⟨.H1_FECollection 1 mesh.Dimension, 1⟩) := by
  refine ⟨fun h => ?_, fun h nodes hn => ?_, fun h hn => ?_⟩
  · have : order > 0 := by omega
    simp [step4, this]
  · have : ¬ order > 0 := by omega
    simp [step4, this, hn]
  · have : ¬ order > 0 := by omega
    simp [step4, this, hn]

/-- C5 (amended) at `order = -1` on a mesh without nodes and at `order = 0` on a NURBS mesh. -/
theorem step4_selection_instances :
    ((-1 : Int) < 1 ∧ (Mesh.mk 2 none 1 1).GetNodes = none
        ∧ step4 (Mesh.mk 2 none 1 1) (-1) = ⟨.H1_FECollection 1 2, 1⟩)
    ∧ ((0 : Int) < 1 ∧ (Mesh.mk 2 (some ⟨"NURBS2"⟩) 1 1).GetNodes = some ⟨"NURBS2"⟩
        ∧ step4 (Mesh.mk 2 (some ⟨"NURBS2"⟩) 1 1) 0 = ⟨.OwnFEC ⟨"NURBS2"⟩, 0⟩)
    ∧ ((1 : Int) ≤ 3 ∧ step4 (Mesh.mk 2 none 1 1) 3 = ⟨.H1_FECollection 3 2, 3⟩) :=
  ⟨⟨by decide, rfl, (step4_selection (Mesh.mk 2 none 1 1) (-1)).2.2 (by decide) rfl⟩,
   ⟨by decide, rfl,
    (step4_selection (Mesh.mk 2 (some ⟨"NURBS2"⟩) 1 1) 0).2.1 (by decide) ⟨"NURBS2"⟩ rfl⟩,
   ⟨by decide, (step4_selection (Mesh.mk 2 none 1 1) 3).1 (by decide)⟩⟩

/-! ### `main`, step 5 -/

theorem length_Array_new (asize : Int) (uninit : Nat → Int) :
    (Array_new asize uninit).length = asize.toNat := by
  simp [Array_new]

theorem length_Array_assign (arr : List Int) (a : Int) :
    (Array_assign arr a).length = arr.length := by
  simp [Array_assign]

theorem mem_Array_assign (arr : List Int) (a e : Int) (h : e ∈ Array_assign arr a) :
    e = a := by
  simp only [Array_assign, List.mem_map] at h
  obtain ⟨_, _, rfl⟩ := h
  rfl

/-- C4, as worded, fails on a mesh with the single boundary attribute 1: the
marker handed to `GetEssentialTrueDofs` for `ess_tdof_list` is `[0]`, so not every
entry of it is 1. -/
theorem step5_ess_bdr_not_all_one :
    (Mesh.mk 2 none 1 1).bdr_attributes_Size ≠ 0
      ∧ (step5 (fun _ => []) (fun _ => 7) (fun _ => 7) (Mesh.mk 2 none 1 1)).ess_bdr_passed
          = some [0]
      ∧ ¬ (∀ e ∈ [(0 : Int)], e = 1) := by
  decide

/-- C4 (amended). In step 5, whenever the mesh has at least one boundary attribute,
`GetEssentialTrueDofs` is called to build `ess_tdof_list` with a marker array
`ess_bdr` of length `bdr_attributes.Max()` whose every entry is 0 (no boundary
attribute is marked essential), and `ess_tdof_list` is the list that call produces;
the marker array whose every entry is 1 is `neumann_bdr`, handed to the second call. -/
theorem step5_markers (GetEssentialTrueDofs : List Int → List Int)
    (uninit_ess uninit_neumann : Nat → Int) (mesh : Mesh)
    (h : mesh.bdr_attributes_Size ≠ 0) :
    ∃ ess_bdr neumann_bdr : List Int,
      (step5 GetEssentialTrueDofs uninit_ess uninit_neumann mesh).ess_bdr_passed = some ess_bdr
      ∧ (step5 GetEssentialTrueDofs uninit_ess uninit_neumann mesh).neumann_bdr_passed
          = some neumann_bdr
      ∧ ess_bdr.length = mesh.bdr_attributes_Max.toNat
      ∧ neumann_bdr.length = mesh.bdr_attributes_Max.toNat
      ∧ (∀ e ∈ ess_bdr, e = 0)
      ∧ (∀ e ∈ neumann_bdr, e = 1)
      ∧ (step5 GetEssentialTrueDofs uninit_ess uninit_neumann mesh).ess_tdof_list
          = GetEssentialTrueDofs ess_bdr := by
  refine ⟨Array_assign (Array_new mesh.bdr_attributes_Max uninit_ess) 0,
    Array_assign (Array_new mesh.bdr_attributes_Max uninit_neumann) 1, ?_, ?_, ?_, ?_, ?_, ?_, ?_⟩
  · simp [step5, h]
  · simp [step5, h]
  · rw [length_Array_assign, length_Array_new]
  · rw [length_Array_assign, length_Array_new]
  · exact fun e he => mem_Array_assign _ _ _ he
  · exact fun e he => mem_Array_assign _ _ _ he
  · simp [step5, h]

/-- C4 (amended) on a mesh with boundary attributes 1, 2, 3. -/
theorem step5_markers_instance :
    (Mesh.mk 2 none 3 3).bdr_attributes_Size ≠ 0
      ∧ ∃ ess_bdr neumann_bdr : List Int,
        (step5 (fun _ => []) (fun _ => 7) (fun _ => 7) (Mesh.mk 2 none 3 3)).ess_bdr_passed
            = some ess_bdr
        ∧ (step5 (fun _ => []) (fun _ => 7) (fun _ => 7) (Mesh.mk 2 none 3 3)).neumann_bdr_passed
            = some neumann_bdr
        ∧ ess_bdr.length = (Mesh.mk 2 none 3 3).bdr_attributes_Max.toNat
        ∧ neumann_bdr.length = (Mesh.mk 2 none 3 3).bdr_attributes_Max.toNat
        ∧ (∀ e ∈ ess_bdr, e = 0)
        ∧ (∀ e ∈ neumann_bdr, e = 1)
        ∧ (step5 (fun _ => []) (fun _ => 7) (fun _ => 7) (Mesh.mk 2 none 3 3)).ess_tdof_list
            = (fun _ => []) ess_bdr :=
  ⟨by decide, step5_markers (fun _ => []) (fun _ => 7) (fun _ => 7) (Mesh.mk 2 none 3 3)
    (by decide)⟩

/-! ### `InitialConditions.hpp` in `double` arithmetic -/

namespace Double

theorem nan_mul (y : Double) : nan * y = nan := by
  cases y <;> rfl

theorem mul_nan (x : Double) : x * nan = nan := by
  cases x <;> rfl

theorem nan_add (y : Double) : nan + y = nan := by
  cases y <;> rfl

theorem add_nan (x : Double) : x + nan = nan := by
  cases x <;> rfl

/-- A zero times anything is NaN or a zero. -/
theorem zero_mul_cases (s : Bool) (y : Double) :
    zero s * y = nan ∨ ∃ t, zero s * y = zero t := by
  cases y with
  | nan => exact Or.inl rfl
  | inf t => exact Or.inl rfl
  | zero t => exact Or.inr ⟨_, rfl⟩
  | fin q => exact Or.inr ⟨_, rfl⟩

/-- A product `b * y * z` whose first factor is a zero is NaN or a zero. -/
theorem zero_mul_mul_cases (s : Bool) (y z : Double) :
    zero s * y * z = nan ∨ ∃ t, zero s * y * z = zero t := by
  rcases zero_mul_cases s y with h | ⟨t, h⟩
  · rw [h]
    exact Or.inl (nan_mul z)
  · rw [h]
    exact zero_mul_cases t z

/-- `b == 0` holds exactly for the two zeros. -/
theorem eq_zero_cases (b : Double) (h : eq b (zero false) = true) : ∃ s, b = zero s := by
  cases b with
  | nan => simp [eq] at h
  | inf s => simp [eq] at h
  | zero s => exact ⟨s, rfl⟩
  | fin q => simp [eq] at h

/-- Adding a zero to `x` gives a value that compares equal to `x`, unless `x` is NaN. -/
theorem eq_add_zero (x : Double) (t : Bool) (h : x + zero t ≠ nan) :
    eq (x + zero t) x = true := by
  cases x with
  | nan => exact absurd rfl h
  | inf s =>
    show eq (inf s) (inf s) = true
    simp [eq]
  | zero s => rfl
  | fin q =>
    show eq (fin q) (fin q) = true
    simp [eq]

/-- With `b == 0`, the sum `B + b * y * z` compares equal to `B` unless it is NaN. -/
theorem eq_add_zero_mul_mul (B b y z : Double) (hb : eq b (zero false) = true)
    (h : B + b * y * z ≠ nan) : eq (B + b * y * z) B = true := by
  obtain ⟨s, rfl⟩ := eq_zero_cases b hb
  rcases zero_mul_mul_cases s y z with hP | ⟨t, hP⟩
  · rw [hP, add_nan] at h
    exact absurd rfl h
  · rw [hP] at h ⊢
    exact eq_add_zero B t h

end Double

/-- For every `<cmath>` whose `M_PI` is the binary64 value of pi and whose `cos` is NaN
at the infinities: with `Lx` a zero and `x(0) = 1`, `InitialPsi` is NaN, whatever
`beta` and `x(1)` are. -/
theorem InitialPsi_nan_of_Lx_zero (m : CMath Double) (g : Globals Double) (x1 : Double)
    (s : Bool) (hpi : m.M_PI = .fin Double.pi64) (hcos : ∀ t, m.cos (.inf t) = .nan)
    (hL : g.Lx = .zero s) :
    InitialPsi m g ![.fin 1, x1] = .nan := by
  have e : (2.0 * Double.fin Double.pi64 / Double.zero s * Double.fin 1 : Double)
      = .inf s := by
    cases s <;> decide!
  simp only [InitialPsi, hpi, hL, Matrix.cons_val_zero, e, hcos, Double.mul_nan,
    Double.add_nan]

/-- C6, as worded, fails at `beta = 0`, `Lx = 0` (the value both globals have before
the driver sets them), `x = (1, 2)`: `2.0*M_PI/Lx` is `+inf`, its cosine is NaN, so
`InitialPsi(x)` is NaN while `BackPsi(x)` is `-2`, and `InitialPsi(x) == BackPsi(x)`
is false. -/
theorem InitialPsi_ne_BackPsi_at_Lx_zero :
    Double.eq (Globals.beta (⟨.zero false, .zero false, .fin 1, .zero false, 0.2, .fin 15⟩
        : Globals Double)) (.zero false) = true
      ∧ InitialPsi sampleMath ⟨.zero false, .zero false, .fin 1, .zero false, 0.2, .fin 15⟩
          ![.fin 1, .fin 2] = .nan
      ∧ BackPsi (![.fin 1, .fin 2] : Fin 2 → Double) = .fin (-2)
      ∧ Double.eq
          (InitialPsi sampleMath ⟨.zero false, .zero false, .fin 1, .zero false, 0.2, .fin 15⟩
            ![.fin 1, .fin 2])
          (BackPsi ![.fin 1, .fin 2]) = false := by
  decide!

/-- With `beta = 0` and `lambda = 0`, at `x = (1, 2)`: `BackPsi2(x)` is `0/0` and
`BackPsi3(x)` is `-0 * NaN`, so both pairs are NaN and compare unequal. -/
theorem InitialPsi2_InitialPsi3_nan_at_lambda_zero :
    InitialPsi2 sampleMath ⟨.zero false, .fin 3, .zero false, .zero false, 0.2, .fin 15⟩
        ![.fin 1, .fin 2] = .nan
      ∧ BackPsi2 sampleMath ⟨.zero false, .fin 3, .zero false, .zero false, 0.2, .fin 15⟩
          ![.fin 1, .fin 2] = .nan
      ∧ InitialPsi3 sampleMath ⟨.zero false, .fin 3, .zero false, .zero false, 0.2, .fin 15⟩
          ![.fin 1, .fin 2] = .nan
      ∧ BackPsi3 sampleMath ⟨.zero false, .fin 3, .zero false, .zero false, 0.2, .fin 15⟩
          ![.fin 1, .fin 2] = .nan := by
  decide!

/-- Rounding: at `beta = 0.1`, `Lx = 1`, `x = (0, 0.5)` the perturbation product is
`0.1 * 1 * 1 = 0.1` and `BackPsi(x) = -0.5`; the sum `-0.5 + 0.1` is rounded, and
`InitialPsi(x) - BackPsi(x)` is `0.09999999999999998`, not `beta` times the
perturbation term. -/
theorem InitialPsi_sub_BackPsi_rounds :
    sampleMath.sin (sampleMath.M_PI * .fin (1 / 2)) = .fin 1
      ∧ sampleMath.cos (2.0 * sampleMath.M_PI / .fin 1 * .zero false) = .fin 1
      ∧ InitialPsi sampleMath ⟨0.1, .fin 1, .fin 1, .zero false, 0.2, .fin 15⟩
            ![.zero false, .fin (1 / 2)]
          - BackPsi ![.zero false, .fin (1 / 2)]
          = .fin (900719925474099 / 9007199254740992)
      ∧ (0.1 : Double) * (.fin 1 * .fin 1) = .fin (3602879701896397 / 36028797018963968)
      ∧ Double.eq
          (InitialPsi sampleMath ⟨0.1, .fin 1, .fin 1, .zero false, 0.2, .fin 15⟩
              ![.zero false, .fin (1 / 2)]
            - BackPsi ![.zero false, .fin (1 / 2)])
          ((0.1 : Double) * (sampleMath.sin (sampleMath.M_PI * .fin (1 / 2))
            * sampleMath.cos (2.0 * sampleMath.M_PI / .fin 1 * .zero false))) = false := by
  decide!

/-- C6 (amended). In `double` arithmetic, for every `<cmath>`, every point `x` and all
values of the globals, for `k = 1, 2, 3`: `InitialPsi_k(x)` is the `double` sum of
`BackPsi_k(x)` and the perturbation product `beta*s*c` of case `k`; and when
`beta == 0` and `InitialPsi_k(x)` is not NaN, `InitialPsi_k(x) == BackPsi_k(x)`. -/
theorem InitialPsi_eq_BackPsi_of_beta_zero (m : CMath Double) (g : Globals Double)
    (x : Fin 2 → Double) :
    (InitialPsi m g x
        = BackPsi x + g.beta * m.sin (m.M_PI * x 1) * m.cos (2.0 * m.M_PI / g.Lx * x 0)
      ∧ InitialPsi2 m g x
        = BackPsi2 m g x + g.beta * m.sin (m.M_PI * x 1) * m.cos (2.0 * m.M_PI / g.Lx * x 0)
      ∧ InitialPsi3 m g x
        = BackPsi3 m g x + g.beta * m.cos (m.M_PI * 0.5 * x 1) * m.cos (m.M_PI * x 0))
    ∧ (Double.eq g.beta (.zero false) = true →
        (InitialPsi m g x ≠ .nan → Double.eq (InitialPsi m g x) (BackPsi x) = true)
      ∧ (InitialPsi2 m g x ≠ .nan
          → Double.eq (InitialPsi2 m g x) (BackPsi2 m g x) = true)
      ∧ (InitialPsi3 m g x ≠ .nan
          → Double.eq (InitialPsi3 m g x) (BackPsi3 m g x) = true)) := by
  refine ⟨⟨rfl, rfl, rfl⟩, fun hb => ⟨fun h => ?_, fun h => ?_, fun h => ?_⟩⟩
  · exact Double.eq_add_zero_mul_mul _ _ _ _ hb h
  · exact Double.eq_add_zero_mul_mul _ _ _ _ hb h
  · exact Double.eq_add_zero_mul_mul _ _ _ _ hb h

/-- C6 (amended) at `beta = 0`, `Lx = 3`, `lambda = 1`, `ep = .2`, `x = (1, 2)`: `beta == 0`
holds, none of the three initial fluxes is NaN, and each compares equal to its
background flux. -/
theorem InitialPsi_eq_BackPsi_of_beta_zero_instance :
    Double.eq (Globals.beta (⟨.zero false, .fin 3, .fin 1, .zero false, 0.2, .fin 15⟩
        : Globals Double)) (.zero false) = true
      ∧ InitialPsi sampleMath ⟨.zero false, .fin 3, .fin 1, .zero false, 0.2, .fin 15⟩
          ![.fin 1, .fin 2] ≠ .nan
      ∧ InitialPsi2 sampleMath ⟨.zero false, .fin 3, .fin 1, .zero false, 0.2, .fin 15⟩
          ![.fin 1, .fin 2] ≠ .nan
      ∧ InitialPsi3 sampleMath ⟨.zero false, .fin 3, .fin 1, .zero false, 0.2, .fin 15⟩
          ![.fin 1, .fin 2] ≠ .nan
      ∧ Double.eq
          (InitialPsi sampleMath ⟨.zero false, .fin 3, .fin 1, .zero false, 0.2, .fin 15⟩
            ![.fin 1, .fin 2])
          (BackPsi ![.fin 1, .fin 2]) = true
      ∧ Double.eq
          (InitialPsi2 sampleMath ⟨.zero false, .fin 3, .fin 1, .zero false, 0.2, .fin 15⟩
            ![.fin 1, .fin 2])
          (BackPsi2 sampleMath ⟨.zero false, .fin 3, .fin 1, .zero false, 0.2, .fin 15⟩
            ![.fin 1, .fin 2]) = true
      ∧ Double.eq
          (InitialPsi3 sampleMath ⟨.zero false, .fin 3, .fin 1, .zero false, 0.2, .fin 15⟩
            ![.fin 1, .fin 2])
          (BackPsi3 sampleMath ⟨.zero false, .fin 3, .fin 1, .zero false, 0.2, .fin 15⟩
            ![.fin 1, .fin 2]) = true :=
  ⟨by decide!, by decide!, by decide!, by decide!,
   ((InitialPsi_eq_BackPsi_of_beta_zero sampleMath
      ⟨.zero false, .fin 3, .fin 1, .zero false, 0.2, .fin 15⟩ ![.fin 1, .fin 2]).2
      (by decide!)).1 (by decide!),
   ((InitialPsi_eq_BackPsi_of_beta_zero sampleMath
      ⟨.zero false, .fin 3, .fin 1, .zero false, 0.2, .fin 15⟩ ![.fin 1, .fin 2]).2
      (by decide!)).2.1 (by decide!),
   ((InitialPsi_eq_BackPsi_of_beta_zero sampleMath
      ⟨.zero false, .fin 3, .fin 1, .zero false, 0.2, .fin 15⟩ ![.fin 1, .fin 2]).2
      (by decide!)).2.2 (by decide!)⟩
